import Mathlib

/-!
Shallow embedding of the idempotency coordinator, spend ledger, encryption
boundary and journal-entry orchestrator of the awsbackend repository
(Go packages `idempotency`, `llm`, `encryption`, and the journal-entry
lambda), together with theorems settling the specification claims.

Modelling conventions:
* The DynamoDB table backing idempotency records is a total map
  `String → Option IdempotencyRecord`; the store itself is assumed
  available (network failures of the store are out of scope).
* Wall-clock time (`time.Now()`) is passed explicitly as a `Nat`
  (Unix seconds); formatted timestamps are passed as `String`.
* The SHA-256 hex digest is an abstract function `hash : String → String`
  supplied as a parameter: the claims depend only on it being a function.
* `float64` money amounts are modelled as exact rationals `ℚ`.
* JSON (de)serialization of handler results is abstract:
  `serialize : V → Option String` / `deserialize : String → Option V`.
-/

namespace AwsBackend

/-- `IdempotencyRecord` from package `idempotency`
(fields key, user_id, request_hash, response, status, created_at,
expires_at, ttl; times as Unix seconds). -/
structure IdempotencyRecord where
  key : String
  userID : String
  requestHash : String
  response : String
  status : String
  createdAt : Nat
  expiresAt : Nat
  ttl : Nat
deriving Repr, DecidableEq

/-- The DynamoDB idempotency table, as a map from partition key to item. -/
def Store : Type := String → Option IdempotencyRecord

/-- PutItem (unconditional) on the idempotency table. -/
def storePut (s : Store) (k : String) (r : IdempotencyRecord) : Store :=
  fun k2 => if k2 = k then some r else s k2

/-- DeleteItem on the idempotency table
(`DeleteIdempotencyRecord` always succeeds in this model). -/
def storeDelete (s : Store) (k : String) : Store :=
  fun k2 => if k2 = k then none else s k2

/-- 24 hours in seconds: the record lifetime used by
`StoreIdempotencyRecord` (TTL) and `ProcessIdempotentRequest` (ExpiresAt). -/
def idempotencyTTL : Nat := 24 * 60 * 60

/-- `GenerateIdempotencyKey`: digest of "userID:endpoint:requestBody". -/
def GenerateIdempotencyKey (hash : String → String)
    (userID endpoint requestBody : String) : String :=
  hash (userID ++ ":" ++ endpoint ++ ":" ++ requestBody)

/-- `GenerateRequestHash`: digest of the request body alone. -/
def GenerateRequestHash (hash : String → String) (requestBody : String) : String :=
  hash requestBody

/-- `CheckIdempotency`: GetItem on `key`; a present record whose
`expires_at` lies strictly in the past is deleted and reported absent.
Returns the store after the (possible) lazy delete plus the lookup result. -/
def CheckIdempotency (s : Store) (now : Nat) (key : String) :
    Store × Option IdempotencyRecord :=
  match s key with
  | none => (s, none)
  | some r =>
      if r.expiresAt < now then (storeDelete s key, none)
      else (s, some r)

/-- `StoreIdempotencyRecord`: sets TTL to now + 24h, then performs a
conditional PutItem (`attribute_not_exists(#key)`); a present key makes
the condition fail and surfaces as the error string the Go code returns. -/
def StoreIdempotencyRecord (s : Store) (now : Nat) (r : IdempotencyRecord) :
    Except String Store :=
  let r2 := { r with ttl := now + idempotencyTTL }
  match s r.key with
  | some _ => .error "idempotency key already exists"
  | none => .ok (storePut s r.key r2)

/-- `UpdateIdempotencyRecord`: UpdateItem setting response and status.
DynamoDB UpdateItem upserts, so an absent key creates a bare item. -/
def UpdateIdempotencyRecord (s : Store) (key response status : String) : Store :=
  match s key with
  | some r => storePut s key { r with response := response, status := status }
  | none => storePut s key
      { key := key, userID := "", requestHash := "", response := response,
        status := status, createdAt := 0, expiresAt := 0, ttl := 0 }

/-- The distinct error returns of `ProcessIdempotentRequest`
(each constructor corresponds to one `fmt.Errorf` site). -/
inductive PErr where
  | unmarshalCached
  | concurrentDuplicate
  | keyConflict
  | storeFailed (msg : String)
  | handlerFailed (msg : String)
  | marshalFailed
deriving Repr, DecidableEq

/-- Result of one `ProcessIdempotentRequest` call: the store afterwards,
the returned value or error, and whether the wrapped handler ran. -/
structure ProcOutcome (V : Type) where
  store : Store
  result : Except PErr V
  workExecuted : Bool

/-- The tail of `ProcessIdempotentRequest` after the lookup dispatch:
create a pending record, conditionally insert it, run the handler and
record completion or failure. -/
def runNewRequest {V : Type} (serialize : V → Option String)
    (s : Store) (now : Nat) (key userID requestHash : String)
    (handler : Unit → Except String V) : ProcOutcome V :=
  let rec0 : IdempotencyRecord :=
    { key := key, userID := userID, requestHash := requestHash,
      response := "", status := "pending",
      createdAt := now, expiresAt := now + idempotencyTTL, ttl := 0 }
  match StoreIdempotencyRecord s now rec0 with
  | .error e => { store := s, result := .error (.storeFailed e), workExecuted := false }
  | .ok s2 =>
      match handler () with
      | .error e =>
          { store := UpdateIdempotencyRecord s2 key ("error: " ++ e) "failed",
            result := .error (.handlerFailed e), workExecuted := true }
      | .ok v =>
          match serialize v with
          | none =>
              { store := UpdateIdempotencyRecord s2 key
                  "error: failed to marshal response" "failed",
                result := .error .marshalFailed, workExecuted := true }
          | some sv =>
              { store := UpdateIdempotencyRecord s2 key sv "completed",
                result := .ok v, workExecuted := true }

/-- `ProcessIdempotentRequest`: compute key and request hash, look up the
record, dispatch on (hash match, status), else insert-and-run. The Go
control flow (two sequential `if`s with an implicit fallthrough for a
matching hash whose status is neither "completed" nor "pending") is
mirrored exactly. -/
def ProcessIdempotentRequest {V : Type} (hash : String → String)
    (serialize : V → Option String) (deserialize : String → Option V)
    (s : Store) (now : Nat) (userID endpoint requestBody : String)
    (handler : Unit → Except String V) : ProcOutcome V :=
  let key := GenerateIdempotencyKey hash userID endpoint requestBody
  let requestHash := GenerateRequestHash hash requestBody
  let checked := CheckIdempotency s now key
  let s1 := checked.1
  match checked.2 with
  | some r =>
      if r.requestHash = requestHash then
        if r.status = "completed" then
          match deserialize r.response with
          | some v => { store := s1, result := .ok v, workExecuted := false }
          | none => { store := s1, result := .error .unmarshalCached, workExecuted := false }
        else if r.status = "pending" then
          { store := s1, result := .error .concurrentDuplicate, workExecuted := false }
        else
          runNewRequest serialize s1 now key userID requestHash handler
      else
        { store := s1, result := .error .keyConflict, workExecuted := false }
  | none => runNewRequest serialize s1 now key userID requestHash handler

/-! ### Spend ledger (package `llm`, CostControlService) -/

/-- `UserSpendRecord` from package `llm` (float64 amounts as `ℚ`). -/
structure UserSpendRecord where
  userID : String
  date : String
  llmRequests : Int
  llmCost : ℚ
  dailyLimit : ℚ
  createdAt : String
  updatedAt : String
  ttl : Nat
deriving Repr, DecidableEq

/-- The DynamoDB user-spend table, keyed by (user_id, date). -/
def SpendStore : Type := String → String → Option UserSpendRecord

/-- PutItem on the user-spend table (`saveUserSpendRecord`). -/
def spendPut (s : SpendStore) (u d : String) (r : UserSpendRecord) : SpendStore :=
  fun u2 d2 => if u2 = u ∧ d2 = d then some r else s u2 d2

/-- `getDefaultDailyLimit`: fixed $5.00 per day for every user. -/
def getDefaultDailyLimit (_userID : String) : ℚ := 5

/-- The record both `CheckUserSpendLimit` and `RecordLLMRequest` work on:
today's stored record, or a fresh in-memory default
(0 requests, $0 cost, default limit) when none exists. -/
def readSpendRecord (s : SpendStore) (userID today nowStr : String) :
    UserSpendRecord :=
  (s userID today).getD
    { userID := userID, date := today, llmRequests := 0, llmCost := 0,
      dailyLimit := getDefaultDailyLimit userID,
      createdAt := nowStr, updatedAt := nowStr, ttl := 0 }

/-- `CostControlResult` from package `llm` (the `reason` string is pure
message formatting and is not modelled). -/
structure CostControlResult where
  allowed : Bool
  remaining : ℚ
  currentCost : ℚ
  dailyLimit : ℚ
deriving Repr, DecidableEq

/-- `CheckUserSpendLimit`: read (or default) today's record, report
current cost / limit / remaining, and allow iff the estimated cost keeps
the total within the daily limit. Performs no writes: the returned store
is the input store. -/
def CheckUserSpendLimit (s : SpendStore) (userID today nowStr : String)
    (estimatedCost : ℚ) : SpendStore × CostControlResult :=
  let record := readSpendRecord s userID today nowStr
  let base : CostControlResult :=
    { allowed := false,
      remaining := record.dailyLimit - record.llmCost,
      currentCost := record.llmCost,
      dailyLimit := record.dailyLimit }
  (s, if record.llmCost + estimatedCost > record.dailyLimit then base
      else { base with allowed := true })

/-- Seven days in seconds: spend-record retention. -/
def spendTTL : Nat := 7 * 24 * 60 * 60

/-- `RecordLLMRequest`: read (or default) today's record, increment the
request count, add the cost, refresh timestamps/TTL, and save. -/
def RecordLLMRequest (s : SpendStore) (userID today nowStr : String)
    (cost : ℚ) (now : Nat) : SpendStore :=
  let record := readSpendRecord s userID today nowStr
  let record2 :=
    { record with
      llmRequests := record.llmRequests + 1,
      llmCost := record.llmCost + cost,
      updatedAt := nowStr,
      ttl := now + spendTTL }
  spendPut s userID today record2

/-- Bedrock per-1K-token prices from `EstimateLLMCost`
(input price, output price), exact decimals. -/
def modelCosts (model : String) : Option (ℚ × ℚ) :=
  if model = "anthropic.claude-3-sonnet-20240229-v1:0" then some (3/1000, 15/1000)
  else if model = "anthropic.claude-3-haiku-20240307-v1:0" then some (1/4000, 5/4000)
  else if model = "anthropic.claude-3-opus-20240229-v1:0" then some (15/1000, 75/1000)
  else none

/-- `EstimateLLMCost`: token counts scaled by per-1K prices, defaulting
to Claude-3-Sonnet pricing for unknown models. -/
def EstimateLLMCost (inputTokens outputTokens : Int) (model : String) : ℚ :=
  let mc := (modelCosts model).getD (3/1000, 15/1000)
  ((inputTokens : ℚ) / 1000) * mc.1 + ((outputTokens : ℚ) / 1000) * mc.2

/-! ### Encryption boundary (package `encryption`, KMSClient)

The external KMS service and base64 codec are abstract parameters:
`svcEnc`/`svcDec` model `kms.Encrypt`/`kms.Decrypt` with the fixed
encryption context {Purpose: PHI-Encryption, Service: Therma-Backend}
already bound (the Go code passes the identical literal map to both),
`b64e`/`b64d` model `base64.StdEncoding`. Results carry the number of
KMS service calls made, to make "no network call" provable. -/

/-- `EncryptPHI`: empty plaintext short-circuits to empty ciphertext with
no service call; otherwise one KMS Encrypt call, base64-encoded. -/
def EncryptPHI (svcEnc : String → Option String) (b64e : String → String)
    (plaintext : String) : Except String (String × Nat) :=
  if plaintext = "" then .ok ("", 0)
  else
    match svcEnc plaintext with
    | none => .error "failed to encrypt PHI"
    | some blob => .ok (b64e blob, 1)

/-- `DecryptPHI`: empty ciphertext short-circuits with no service call;
otherwise base64-decode then one KMS Decrypt call. -/
def DecryptPHI (svcDec : String → Option String) (b64d : String → Option String)
    (ciphertext : String) : Except String (String × Nat) :=
  if ciphertext = "" then .ok ("", 0)
  else
    match b64d ciphertext with
    | none => .error "failed to decode ciphertext"
    | some blob =>
        match svcDec blob with
        | none => .error "failed to decrypt PHI"
        | some p => .ok (p, 1)

/-- `EncryptPHIArray`: element-wise `EncryptPHI`, failing the whole call
at the first failing element; total service calls are summed. -/
def EncryptPHIArray (svcEnc : String → Option String) (b64e : String → String) :
    List String → Except String (List String × Nat)
  | [] => .ok ([], 0)
  | p :: rest =>
      match EncryptPHI svcEnc b64e p with
      | .error e => .error e
      | .ok (c, n) =>
          match EncryptPHIArray svcEnc b64e rest with
          | .error e => .error e
          | .ok (cs, m) => .ok (c :: cs, n + m)

/-! ### Journal-entry orchestrator (lambda/journal-entry/main.go) -/

/-- `JournalEntryRequest` from the journal-entry lambda. -/
structure JournalEntryRequest where
  content : String
  mood : String
  tags : List String
  idempotencyKey : String
deriving Repr, DecidableEq

/-- `JournalEntryResponse` from the journal-entry lambda
(times as Unix seconds). -/
structure JournalEntryResponse where
  id : String
  userID : String
  content : String
  mood : String
  tags : List String
  createdAt : Nat
  updatedAt : Nat
  encrypted : Bool
deriving Repr, DecidableEq

/-- `generateID`: "entry_" followed by the current nanosecond clock. -/
def generateID (nowNanos : Nat) : String :=
  "entry_" ++ toString nowNanos

/-- `handleCostLimitExceeded`: the degraded response — plaintext fields,
`encrypted = false`, and the hardcoded placeholder string "user_id" in
the userId field (the function does not receive the caller's id). -/
def handleCostLimitExceeded (req : JournalEntryRequest)
    (_costCheck : CostControlResult) (now nowNanos : Nat) : JournalEntryResponse :=
  { id := generateID nowNanos, userID := "user_id",
    content := req.content, mood := req.mood, tags := req.tags,
    createdAt := now, updatedAt := now, encrypted := false }

/-- Observable outcome of `processJournalEntry`: the response entity,
how many KMS encryption calls were made, whether a cost record was
written, and the spend store afterwards. -/
structure JournalOutcome where
  entry : JournalEntryResponse
  encryptCalls : Nat
  costRecorded : Bool
  spendAfter : SpendStore

/-- `processJournalEntry`: estimate cost, run the admission check,
degrade when denied, otherwise encrypt content/mood/tags, build the
entity and record the cost. `len(req.Content)` is the UTF-8 byte
length. -/
def processJournalEntry (userID : String) (req : JournalEntryRequest)
    (spend : SpendStore) (today nowStr : String)
    (svcEnc : String → Option String) (b64e : String → String)
    (now nowNanos : Nat) : Except String JournalOutcome :=
  let estimatedCost := EstimateLLMCost (req.content.utf8ByteSize : Int) 100
    "anthropic.claude-3-sonnet-20240229-v1:0"
  let checked := CheckUserSpendLimit spend userID today nowStr estimatedCost
  let spend1 := checked.1
  let costCheck := checked.2
  if costCheck.allowed = false then
    .ok { entry := handleCostLimitExceeded req costCheck now nowNanos,
          encryptCalls := 0, costRecorded := false, spendAfter := spend1 }
  else
    match EncryptPHI svcEnc b64e req.content with
    | .error e => .error e
    | .ok (encContent, n1) =>
        match EncryptPHI svcEnc b64e req.mood with
        | .error e => .error e
        | .ok (encMood, n2) =>
            match EncryptPHIArray svcEnc b64e req.tags with
            | .error e => .error e
            | .ok (encTags, n3) =>
                let entry : JournalEntryResponse :=
                  { id := generateID nowNanos, userID := userID,
                    content := encContent, mood := encMood, tags := encTags,
                    createdAt := now, updatedAt := now, encrypted := true }
                let spend2 := RecordLLMRequest spend1 userID today nowStr
                  estimatedCost now
                .ok { entry := entry, encryptCalls := n1 + n2 + n3,
                      costRecorded := true, spendAfter := spend2 }

/-! ### Interleaving model for N concurrent `ProcessIdempotentRequest`
calls on one fixed (user, operation, body) triple

All N invocations compute the same `key` and `requestHash`. Each
invocation performs the atomic store operations the Go code issues, each
as its own step: the GetItem of `CheckIdempotency`; when the fetched
record is observed expired, the *separate, unconditional* DeleteItem of
`DeleteIdempotencyRecord` (a second network call — other invocations'
operations can interleave between the get and the delete, and the delete
removes whatever record currently sits at the key); the conditional
PutItem of `StoreIdempotencyRecord`; and the UpdateItem after the
handler ran. The handler runs iff the conditional insert succeeded. A
scheduler interleaves these operations arbitrarily; each timed operation
carries its own wall-clock time, constrained to a window of one record
lifetime (the meaning of "submitted concurrently"). -/

/-- Control point of one invocation between its atomic store operations.
`needDelete` is the point inside `CheckIdempotency` after the GetItem
observed an expired record and before the unconditional DeleteItem. -/
inductive Phase where
  | start
  | needDelete
  | checked (found : Option IdempotencyRecord)
  | afterInsert (ok : Bool)
  | finished
deriving Repr, DecidableEq

/-- An invocation has executed (or begun executing) the wrapped handler
iff its conditional insert succeeded. -/
def ranWork : Phase → Bool
  | .afterInsert true => true
  | .finished => true
  | _ => false

/-- Global state: the shared idempotency table plus each invocation's
control point. -/
structure CState (n : Nat) where
  store : Store
  phases : Fin n → Phase

/-- The lookup dispatch of `ProcessIdempotentRequest`, restricted to a
fixed request hash: an invocation proceeds to the conditional insert iff
it saw no record, or a matching-hash record whose status is neither
"completed" nor "pending" (the fallthrough for "failed"). -/
def goesToInsert (requestHash : String) : Option IdempotencyRecord → Bool
  | none => true
  | some r =>
      decide (r.requestHash = requestHash) &&
      !(decide (r.status = "completed")) && !(decide (r.status = "pending"))

/-- The fresh pending record `ProcessIdempotentRequest` builds before
its conditional insert. -/
def mkPending (key userID requestHash : String) (t : Nat) : IdempotencyRecord :=
  { key := key, userID := userID, requestHash := requestHash,
    response := "", status := "pending",
    createdAt := t, expiresAt := t + idempotencyTTL, ttl := 0 }

/-- `CheckIdempotency`'s local control flow right after its GetItem at
time `t`: nothing fetched reports absent; a fetched record observed
expired (`time.Now().After(ExpiresAt)`) heads for the separate
DeleteItem; a live record is reported as found. -/
def observePhase (obs : Option IdempotencyRecord) (t : Nat) : Phase :=
  match obs with
  | none => .checked none
  | some r => if r.expiresAt < t then .needDelete else .checked (some r)

/-- One atomic store operation by one invocation. Every timed
operation's time `t` lies in the window [t0, t0 + idempotencyTTL]. -/
inductive Step (n : Nat) (key userID requestHash : String) (t0 : Nat) :
    CState n → CState n → Prop where
  | getItem (s : CState n) (i : Fin n) (t : Nat)
      (hlo : t0 ≤ t) (hhi : t ≤ t0 + idempotencyTTL)
      (hp : s.phases i = .start) :
      Step n key userID requestHash t0 s
        { store := s.store,
          phases := Function.update s.phases i (observePhase (s.store key) t) }
  | expiryDelete (s : CState n) (i : Fin n)
      (hp : s.phases i = .needDelete) :
      Step n key userID requestHash t0 s
        { store := storeDelete s.store key,
          phases := Function.update s.phases i (.checked none) }
  | insertOk (s : CState n) (i : Fin n) (t : Nat)
      (obs : Option IdempotencyRecord)
      (hlo : t0 ≤ t) (hhi : t ≤ t0 + idempotencyTTL)
      (hp : s.phases i = .checked obs)
      (hgo : goesToInsert requestHash obs = true)
      (habs : s.store key = none) :
      Step n key userID requestHash t0 s
        { store := storePut s.store key
            { mkPending key userID requestHash t with ttl := t + idempotencyTTL },
          phases := Function.update s.phases i (.afterInsert true) }
  | insertFail (s : CState n) (i : Fin n) (t : Nat)
      (obs : Option IdempotencyRecord)
      (hlo : t0 ≤ t) (hhi : t ≤ t0 + idempotencyTTL)
      (hp : s.phases i = .checked obs)
      (hgo : goesToInsert requestHash obs = true)
      (hpres : (s.store key).isSome = true) :
      Step n key userID requestHash t0 s
        { store := s.store,
          phases := Function.update s.phases i (.afterInsert false) }
  | finish (s : CState n) (i : Fin n) (resp status : String)
      (hp : s.phases i = .afterInsert true) :
      Step n key userID requestHash t0 s
        { store := UpdateIdempotencyRecord s.store key resp status,
          phases := Function.update s.phases i .finished }

/-- All N invocations start before any store operation, on an arbitrary
initial table. -/
def initCState (n : Nat) (store0 : Store) : CState n :=
  { store := store0, phases := fun _ => .start }

/-- States reachable by interleaving the N invocations' operations. -/
def Reach (n : Nat) (key userID requestHash : String) (t0 : Nat)
    (store0 : Store) : CState n → Prop :=
  Relation.ReflTransGen (Step n key userID requestHash t0)
    (initCState n store0)

/-- Mutual-exclusion invariant (holds only when the key starts the
window without an expired record): work executions are pairwise equal
(at most one); once any invocation ran work the key is occupied by a
record that outlives the concurrency window; no invocation is about to
perform the unconditional expiry delete; and any record at the key
outlives the window. -/
def MutexInv (n : Nat) (key : String) (t0 : Nat) (s : CState n) : Prop :=
  (∀ i j : Fin n, ranWork (s.phases i) = true → ranWork (s.phases j) = true → i = j) ∧
  ((∃ i : Fin n, ranWork (s.phases i) = true) →
    ∃ r : IdempotencyRecord, s.store key = some r ∧
      t0 + idempotencyTTL ≤ r.expiresAt) ∧
  (∀ i : Fin n, s.phases i ≠ .needDelete) ∧
  (s.store key = none ∨
    ∃ r : IdempotencyRecord, s.store key = some r ∧
      t0 + idempotencyTTL ≤ r.expiresAt)

/-! ### Theorems -/

theorem ranWork_update_eq {n : Nat} (ph : Fin n → Phase) (i : Fin n) (p : Phase)
    (h : ranWork p = ranWork (ph i)) (j : Fin n) :
    ranWork (Function.update ph i p j) = ranWork (ph j) := by
  by_cases hj : j = i
  · subst hj; rw [Function.update_same, h]
  · rw [Function.update_noteq hj]

theorem mutexInv_step {n : Nat} {key userID requestHash : String} {t0 : Nat}
    {s s' : CState n}
    (hstep : Step n key userID requestHash t0 s s')
    (hinv : MutexInv n key t0 s) : MutexInv n key t0 s' := by
  obtain ⟨h1, h2, h3, h4⟩ := hinv
  cases hstep with
  | getItem i t hlo hhi hp =>
      have hred : observePhase (s.store key) t = Phase.checked (s.store key) := by
        cases h4 with
        | inl h => rw [h]; rfl
        | inr h =>
            obtain ⟨r, hr, hexp⟩ := h
            rw [hr]
            have hte : ¬ r.expiresAt < t := by omega
            simp [observePhase, hte]
      have hrw := ranWork_update_eq s.phases i (observePhase (s.store key) t)
        (by rw [hred, hp]; rfl)
      refine ⟨?_, ?_, ?_, h4⟩
      · intro a b ha hb
        exact h1 a b ((hrw a) ▸ ha) ((hrw b) ▸ hb)
      · intro ⟨j, hj⟩
        exact h2 ⟨j, (hrw j) ▸ hj⟩
      · intro j
        show Function.update s.phases i (observePhase (s.store key) t) j ≠
          Phase.needDelete
        by_cases hji : j = i
        · subst hji
          rw [Function.update_same, hred]
          simp
        · rw [Function.update_noteq hji]
          exact h3 j
  | expiryDelete i hp =>
      exact absurd hp (h3 i)
  | insertOk i t obs hlo hhi hp hgo habs =>
      have hnone : ∀ j : Fin n, ranWork (s.phases j) = false := by
        intro j
        cases hj : ranWork (s.phases j) with
        | false => rfl
        | true =>
            obtain ⟨r, hr, _⟩ := h2 ⟨j, hj⟩
            rw [habs] at hr
            exact absurd hr (by simp)
      have hrw : ∀ j : Fin n,
          ranWork (Function.update s.phases i (Phase.afterInsert true) j) = true →
          j = i := by
        intro j hj
        by_cases hji : j = i
        · exact hji
        · rw [Function.update_noteq hji] at hj
          rw [hnone j] at hj
          exact absurd hj (by simp)
      have hput : storePut s.store key
          { mkPending key userID requestHash t with ttl := t + idempotencyTTL } key
          = some { mkPending key userID requestHash t with
                   ttl := t + idempotencyTTL } := by
        simp [storePut]
      have hexp : t0 + idempotencyTTL ≤
          ({ mkPending key userID requestHash t with
             ttl := t + idempotencyTTL } : IdempotencyRecord).expiresAt := by
        show t0 + idempotencyTTL ≤ (mkPending key userID requestHash t).expiresAt
        simp only [mkPending]
        omega
      refine ⟨?_, ?_, ?_, ?_⟩
      · intro a b ha hb
        rw [hrw a ha, hrw b hb]
      · intro _
        exact ⟨_, hput, hexp⟩
      · intro j
        show Function.update s.phases i (Phase.afterInsert true) j ≠
          Phase.needDelete
        by_cases hji : j = i
        · subst hji
          rw [Function.update_same]
          simp
        · rw [Function.update_noteq hji]
          exact h3 j
      · exact Or.inr ⟨_, hput, hexp⟩
  | insertFail i t obs hlo hhi hp hgo hpres =>
      have hrw := ranWork_update_eq s.phases i (Phase.afterInsert false) (by rw [hp]; rfl)
      refine ⟨?_, ?_, ?_, h4⟩
      · intro a b ha hb
        exact h1 a b ((hrw a) ▸ ha) ((hrw b) ▸ hb)
      · intro ⟨j, hj⟩
        exact h2 ⟨j, (hrw j) ▸ hj⟩
      · intro j
        show Function.update s.phases i (Phase.afterInsert false) j ≠
          Phase.needDelete
        by_cases hji : j = i
        · subst hji
          rw [Function.update_same]
          simp
        · rw [Function.update_noteq hji]
          exact h3 j
  | finish i resp status hp =>
      have hrw := ranWork_update_eq s.phases i Phase.finished (by rw [hp]; rfl)
      have hw : ranWork (s.phases i) = true := by rw [hp]; rfl
      obtain ⟨r, hr, hexp⟩ := h2 ⟨i, hw⟩
      have hupd : UpdateIdempotencyRecord s.store key resp status key
          = some { r with response := resp, status := status } := by
        simp [UpdateIdempotencyRecord, hr, storePut]
      refine ⟨?_, ?_, ?_, ?_⟩
      · intro a b ha hb
        exact h1 a b ((hrw a) ▸ ha) ((hrw b) ▸ hb)
      · intro _
        exact ⟨_, hupd, hexp⟩
      · intro j
        show Function.update s.phases i Phase.finished j ≠ Phase.needDelete
        by_cases hji : j = i
        · subst hji
          rw [Function.update_same]
          simp
        · rw [Function.update_noteq hji]
          exact h3 j
      · exact Or.inr ⟨_, hupd, hexp⟩

theorem mutexInv_reach {n : Nat} {key userID requestHash : String} {t0 : Nat}
    {store0 : Store} {s : CState n}
    (hinit : store0 key = none ∨
      ∃ r0 : IdempotencyRecord, store0 key = some r0 ∧
        t0 + idempotencyTTL ≤ r0.expiresAt)
    (h : Reach n key userID requestHash t0 store0 s) :
    MutexInv n key t0 s := by
  induction h with
  | refl =>
      refine ⟨?_, ?_, ?_, hinit⟩
      · intro i j hi _
        exact absurd hi (by simp [initCState, ranWork])
      · intro ⟨i, hi⟩
        exact absurd hi (by simp [initCState, ranWork])
      · intro i
        simp [initCState]
  | tail _ hstep ih => exact mutexInv_step hstep ih

def c1Key : String := GenerateIdempotencyKey (fun x => x) "u" "e" "b"

/-- An idempotency record for `c1Key` that is already expired at every
positive time: the situation the unconditional lazy-expiry delete is
meant to clean up. -/
def c1xRec : IdempotencyRecord :=
  { key := c1Key, userID := "u",
    requestHash := GenerateRequestHash (fun x => x) "b", response := "old",
    status := "completed", createdAt := 0, expiresAt := 0, ttl := 0 }

/-- Initial table holding the expired record. -/
def c1xStore0 : Store := fun k => if k = c1Key then some c1xRec else none

def c1xState0 : CState 2 := initCState 2 c1xStore0

/-- Invocation 0's GetItem at t = 1 observes the expired record. -/
def c1xState1 : CState 2 :=
  { store := c1xState0.store,
    phases := Function.update c1xState0.phases 0
      (observePhase (c1xState0.store c1Key) 1) }

/-- Invocation 1's GetItem at t = 1 observes the same expired record. -/
def c1xState2 : CState 2 :=
  { store := c1xState1.store,
    phases := Function.update c1xState1.phases 1
      (observePhase (c1xState1.store c1Key) 1) }

/-- Invocation 1's unconditional expiry delete removes the record. -/
def c1xState3 : CState 2 :=
  { store := storeDelete c1xState2.store c1Key,
    phases := Function.update c1xState2.phases 1 (.checked none) }

/-- Invocation 1's conditional insert succeeds; invocation 1 runs work. -/
def c1xState4 : CState 2 :=
  { store := storePut c1xState3.store c1Key
      { mkPending c1Key "u" (GenerateRequestHash (fun x => x) "b") 1 with
        ttl := 1 + idempotencyTTL },
    phases := Function.update c1xState3.phases 1 (.afterInsert true) }

/-- Invocation 0's delayed unconditional expiry delete now removes
invocation 1's fresh pending record. -/
def c1xState5 : CState 2 :=
  { store := storeDelete c1xState4.store c1Key,
    phases := Function.update c1xState4.phases 0 (.checked none) }

/-- Invocation 0's conditional insert succeeds; invocation 0 runs work
too. -/
def c1xState6 : CState 2 :=
  { store := storePut c1xState5.store c1Key
      { mkPending c1Key "u" (GenerateRequestHash (fun x => x) "b") 1 with
        ttl := 1 + idempotencyTTL },
    phases := Function.update c1xState5.phases 0 (.afterInsert true) }

/-- Counterexample to C1 as stated: from a store holding an expired
record for the key, two concurrent invocations of the same (user,
operation, body) triple can BOTH execute the wrapped work closure. Both
observe the expired record; the faster one deletes it, inserts a fresh
pending record and runs work; the slower one's delayed *unconditional*
expiry DeleteItem then removes that fresh pending record, so its own
conditional insert also succeeds and it runs work as well — an
interleaving of the two separate DynamoDB calls inside
`CheckIdempotency` that defeats the conditional insert. -/
theorem c1_two_executions_counterexample :
    Reach 2 (GenerateIdempotencyKey (fun x => x) "u" "e" "b") "u"
      (GenerateRequestHash (fun x => x) "b") 0 c1xStore0 c1xState6 ∧
    ranWork (c1xState6.phases 0) = true ∧
    ranWork (c1xState6.phases 1) = true ∧
    (0 : Fin 2) ≠ (1 : Fin 2) := by
  have h01 : Step 2 c1Key "u" (GenerateRequestHash (fun x => x) "b") 0
      c1xState0 c1xState1 :=
    Step.getItem c1xState0 0 1 (Nat.zero_le 1) (by decide) rfl
  have h12 : Step 2 c1Key "u" (GenerateRequestHash (fun x => x) "b") 0
      c1xState1 c1xState2 :=
    Step.getItem c1xState1 1 1 (Nat.zero_le 1) (by decide) rfl
  have h23 : Step 2 c1Key "u" (GenerateRequestHash (fun x => x) "b") 0
      c1xState2 c1xState3 :=
    Step.expiryDelete c1xState2 1 rfl
  have h34 : Step 2 c1Key "u" (GenerateRequestHash (fun x => x) "b") 0
      c1xState3 c1xState4 :=
    Step.insertOk c1xState3 1 1 none (Nat.zero_le 1) (by decide) rfl rfl rfl
  have h45 : Step 2 c1Key "u" (GenerateRequestHash (fun x => x) "b") 0
      c1xState4 c1xState5 :=
    Step.expiryDelete c1xState4 0 rfl
  have h56 : Step 2 c1Key "u" (GenerateRequestHash (fun x => x) "b") 0
      c1xState5 c1xState6 :=
    Step.insertOk c1xState5 0 1 none (Nat.zero_le 1) (by decide) rfl rfl rfl
  refine ⟨?_, rfl, rfl, by decide⟩
  exact Relation.ReflTransGen.tail (Relation.ReflTransGen.tail
    (Relation.ReflTransGen.tail (Relation.ReflTransGen.tail
      (Relation.ReflTransGen.tail (Relation.ReflTransGen.tail
        Relation.ReflTransGen.refl h01) h12) h23) h34) h45) h56

/-- C1 amended: for a fixed (user, operation, body) triple processed by
N concurrently interleaved `ProcessIdempotentRequest` invocations, at
most one invocation ever executes the wrapped work closure — provided
the idempotency key starts the window either absent from the store or
holding a record that outlives the window (so no invocation observes an
expired record and triggers the unconditional lazy-expiry delete). -/
theorem c1_at_most_one_work (n : Nat) (hash : String → String)
    (userID endpoint requestBody : String) (t0 : Nat) (store0 : Store)
    (hinit : store0 (GenerateIdempotencyKey hash userID endpoint requestBody)
        = none ∨
      ∃ r0 : IdempotencyRecord,
        store0 (GenerateIdempotencyKey hash userID endpoint requestBody)
          = some r0 ∧ t0 + idempotencyTTL ≤ r0.expiresAt)
    (s : CState n)
    (hreach : Reach n (GenerateIdempotencyKey hash userID endpoint requestBody)
      userID (GenerateRequestHash hash requestBody) t0 store0 s)
    (i j : Fin n)
    (hi : ranWork (s.phases i) = true) (hj : ranWork (s.phases j) = true) :
    i = j :=
  (mutexInv_reach hinit hreach).1 i j hi hj

def c1State0 : CState 2 := initCState 2 (fun _ => none)

def c1State1 : CState 2 :=
  { store := c1State0.store,
    phases := Function.update c1State0.phases 0
      (observePhase (c1State0.store c1Key) 0) }

def c1State2 : CState 2 :=
  { store := storePut c1State1.store c1Key
      { mkPending c1Key "u" (GenerateRequestHash (fun x => x) "b") 0 with
        ttl := 0 + idempotencyTTL },
    phases := Function.update c1State1.phases 0 (.afterInsert true) }

/-- Witness for C1 amended: from an initially empty table (the left
disjunct of the initial-state hypothesis), a concrete two-invocation
interleaving in which invocation 0 got, inserted and ran work; the
theorem applied there identifies any two workers. -/
theorem c1_at_most_one_work_witness :
    ((fun _ => none : Store) (GenerateIdempotencyKey (fun x => x) "u" "e" "b")
      = none) ∧
    Reach 2 (GenerateIdempotencyKey (fun x => x) "u" "e" "b") "u"
      (GenerateRequestHash (fun x => x) "b") 0 (fun _ => none) c1State2 ∧
    ranWork (c1State2.phases 0) = true ∧
    (0 : Fin 2) = (0 : Fin 2) := by
  have h01 : Step 2 c1Key "u" (GenerateRequestHash (fun x => x) "b") 0
      c1State0 c1State1 :=
    Step.getItem c1State0 0 0 (Nat.le_refl 0) (Nat.zero_le _) rfl
  have h12 : Step 2 c1Key "u" (GenerateRequestHash (fun x => x) "b") 0
      c1State1 c1State2 :=
    Step.insertOk c1State1 0 0 none (Nat.le_refl 0) (Nat.zero_le _) rfl rfl rfl
  have hreach : Reach 2 c1Key "u" (GenerateRequestHash (fun x => x) "b") 0
      (fun _ => none) c1State2 :=
    Relation.ReflTransGen.tail (Relation.ReflTransGen.tail
      Relation.ReflTransGen.refl h01) h12
  have hw : ranWork (c1State2.phases 0) = true := by
    simp [c1State2, Function.update_same, ranWork]
  exact ⟨rfl, hreach, hw,
    c1_at_most_one_work 2 (fun x => x) "u" "e" "b" 0 (fun _ => none)
      (Or.inl rfl) c1State2 hreach 0 0 hw hw⟩

/-- C2: a live record for the computed key with matching request hash and
status "completed" makes `ProcessIdempotentRequest` return the
deserialized stored response, leave the store untouched, and never invoke
the work closure. -/
theorem c2_completed_cached {V : Type} (hash : String → String)
    (serialize : V → Option String) (deserialize : String → Option V)
    (s : Store) (now : Nat) (userID endpoint requestBody : String)
    (handler : Unit → Except String V) (r : IdempotencyRecord) (v : V)
    (hrec : s (GenerateIdempotencyKey hash userID endpoint requestBody) = some r)
    (hlive : ¬ r.expiresAt < now)
    (hhash : r.requestHash = GenerateRequestHash hash requestBody)
    (hst : r.status = "completed")
    (hde : deserialize r.response = some v) :
    ProcessIdempotentRequest hash serialize deserialize s now userID endpoint
      requestBody handler
      = { store := s, result := .ok v, workExecuted := false } := by
  simp [ProcessIdempotentRequest, CheckIdempotency, hrec, hlive, hhash, hst, hde]

def c2Rec : IdempotencyRecord :=
  { key := "u:e:b", userID := "u", requestHash := "b", response := "cached",
    status := "completed", createdAt := 0, expiresAt := 100, ttl := 0 }

def c2Store : Store := fun k => if k = "u:e:b" then some c2Rec else none

/-- Witness for C2 at a concrete store holding a live completed record. -/
theorem c2_completed_cached_witness :
    c2Store (GenerateIdempotencyKey (fun x => x) "u" "e" "b") = some c2Rec ∧
    ¬ c2Rec.expiresAt < 50 ∧
    (ProcessIdempotentRequest (fun x => x) (fun v => some v) some c2Store 50
      "u" "e" "b" (fun _ => .ok "fresh")).result = .ok "cached" := by
  have h := c2_completed_cached (fun x => x) (fun v => some v) some c2Store 50
    "u" "e" "b" (fun _ => .ok "fresh") c2Rec "cached" rfl (by decide) rfl rfl rfl
  exact ⟨rfl, by decide, by rw [h]⟩

/-- C3: (a) a live record with matching request hash and status "pending"
makes `ProcessIdempotentRequest` fail with the concurrent-duplicate error
without running the work closure; (b) whenever the conditional insert of
the fresh pending record finds the key already present, the call fails
with the store error and the work closure is never executed. -/
theorem c3_pending_or_insert_race (V : Type) :
    (∀ (hash : String → String) (serialize : V → Option String)
       (deserialize : String → Option V) (s : Store) (now : Nat)
       (userID endpoint requestBody : String)
       (handler : Unit → Except String V) (r : IdempotencyRecord),
       s (GenerateIdempotencyKey hash userID endpoint requestBody) = some r →
       ¬ r.expiresAt < now →
       r.requestHash = GenerateRequestHash hash requestBody →
       r.status = "pending" →
       ProcessIdempotentRequest hash serialize deserialize s now userID
         endpoint requestBody handler
         = { store := s, result := .error .concurrentDuplicate,
             workExecuted := false }) ∧
    (∀ (serialize : V → Option String) (s : Store) (now : Nat)
       (key userID requestHash : String) (handler : Unit → Except String V),
       (s key).isSome = true →
       runNewRequest serialize s now key userID requestHash handler
         = { store := s,
             result := .error (.storeFailed "idempotency key already exists"),
             workExecuted := false }) := by
  constructor
  · intro hash serialize deserialize s now userID endpoint requestBody handler r
      hrec hlive hhash hst
    simp [ProcessIdempotentRequest, CheckIdempotency, hrec, hlive, hhash, hst]
  · intro serialize s now key userID requestHash handler hpres
    obtain ⟨r, hr⟩ := Option.isSome_iff_exists.mp hpres
    simp [runNewRequest, StoreIdempotencyRecord, hr]

def c3Rec : IdempotencyRecord :=
  { key := "u:e:b", userID := "u", requestHash := "b", response := "",
    status := "pending", createdAt := 0, expiresAt := 100, ttl := 0 }

def c3Store : Store := fun k => if k = "u:e:b" then some c3Rec else none

/-- Witness for C3: a live pending record fails fast, and a lost insert
race fails with the store error; neither runs the work closure. -/
theorem c3_pending_or_insert_race_witness :
    c3Store (GenerateIdempotencyKey (fun x => x) "u" "e" "b") = some c3Rec ∧
    ¬ c3Rec.expiresAt < 50 ∧
    (ProcessIdempotentRequest (fun x => x) (fun v => some v) some c3Store 50
      "u" "e" "b" (fun _ => .ok "fresh")
      = { store := c3Store, result := .error .concurrentDuplicate,
          workExecuted := false }) ∧
    (c3Store "u:e:b").isSome = true ∧
    runNewRequest (fun v : String => some v) c3Store 50 "u:e:b" "u" "b"
      (fun _ => .ok "fresh")
      = { store := c3Store,
          result := .error (.storeFailed "idempotency key already exists"),
          workExecuted := false } := by
  refine ⟨rfl, by decide, ?_, by decide, ?_⟩
  · exact (c3_pending_or_insert_race String).1 (fun x => x) (fun v => some v)
      some c3Store 50 "u" "e" "b" (fun _ => .ok "fresh") c3Rec rfl (by decide)
      rfl rfl
  · exact (c3_pending_or_insert_race String).2 (fun v => some v) c3Store 50
      "u:e:b" "u" "b" (fun _ => .ok "fresh") (by decide)

/-- C4: a live record for the computed key whose stored request hash
differs from the submitted body's hash makes `ProcessIdempotentRequest`
fail with the key-conflict error without running the work closure. -/
theorem c4_key_conflict {V : Type} (hash : String → String)
    (serialize : V → Option String) (deserialize : String → Option V)
    (s : Store) (now : Nat) (userID endpoint requestBody : String)
    (handler : Unit → Except String V) (r : IdempotencyRecord)
    (hrec : s (GenerateIdempotencyKey hash userID endpoint requestBody) = some r)
    (hlive : ¬ r.expiresAt < now)
    (hhash : r.requestHash ≠ GenerateRequestHash hash requestBody) :
    ProcessIdempotentRequest hash serialize deserialize s now userID endpoint
      requestBody handler
      = { store := s, result := .error .keyConflict, workExecuted := false } := by
  simp [ProcessIdempotentRequest, CheckIdempotency, hrec, hlive, hhash]

def c4Rec : IdempotencyRecord :=
  { key := "u:e:b", userID := "u", requestHash := "other-body",
    response := "", status := "completed", createdAt := 0, expiresAt := 100,
    ttl := 0 }

def c4Store : Store := fun k => if k = "u:e:b" then some c4Rec else none

/-- Witness for C4 at a concrete store whose record hashes a different body. -/
theorem c4_key_conflict_witness :
    c4Store (GenerateIdempotencyKey (fun x => x) "u" "e" "b") = some c4Rec ∧
    ¬ c4Rec.expiresAt < 50 ∧
    c4Rec.requestHash ≠ GenerateRequestHash (fun x => x) "b" ∧
    ProcessIdempotentRequest (fun x => x) (fun v : String => some v) some
      c4Store 50 "u" "e" "b" (fun _ => .ok "fresh")
      = { store := c4Store, result := .error .keyConflict,
          workExecuted := false } := by
  refine ⟨rfl, by decide, by decide, ?_⟩
  exact c4_key_conflict (fun x => x) (fun v => some v) some c4Store 50
    "u" "e" "b" (fun _ => .ok "fresh") c4Rec rfl (by decide) (by decide)

/-- C9: an expired record is lazily deleted and reported absent by
`CheckIdempotency`, and the same `ProcessIdempotentRequest` call then
inserts a fresh pending record and executes the work closure again. -/
theorem c9_expired_reexecutes {V : Type} (hash : String → String)
    (serialize : V → Option String) (deserialize : String → Option V)
    (s : Store) (now : Nat) (userID endpoint requestBody : String)
    (handler : Unit → Except String V) (r : IdempotencyRecord)
    (hrec : s (GenerateIdempotencyKey hash userID endpoint requestBody) = some r)
    (hexp : r.expiresAt < now) :
    CheckIdempotency s now (GenerateIdempotencyKey hash userID endpoint requestBody)
      = (storeDelete s (GenerateIdempotencyKey hash userID endpoint requestBody),
         none) ∧
    (ProcessIdempotentRequest hash serialize deserialize s now userID endpoint
      requestBody handler).workExecuted = true := by
  constructor
  · simp [CheckIdempotency, hrec, hexp]
  · cases hh : handler () with
    | error e =>
        simp [ProcessIdempotentRequest, CheckIdempotency, hrec, hexp,
          runNewRequest, StoreIdempotencyRecord, storeDelete, hh]
    | ok v =>
        cases hs : serialize v with
        | none =>
            simp [ProcessIdempotentRequest, CheckIdempotency, hrec, hexp,
              runNewRequest, StoreIdempotencyRecord, storeDelete, hh, hs]
        | some sv =>
            simp [ProcessIdempotentRequest, CheckIdempotency, hrec, hexp,
              runNewRequest, StoreIdempotencyRecord, storeDelete, hh, hs]

def c9Rec : IdempotencyRecord :=
  { key := "u:e:b", userID := "u", requestHash := "b", response := "old",
    status := "completed", createdAt := 0, expiresAt := 100, ttl := 0 }

def c9Store : Store := fun k => if k = "u:e:b" then some c9Rec else none

/-- Witness for C9: at a time past the record's expiry, the lookup deletes
it and the call runs the work closure again. -/
theorem c9_expired_reexecutes_witness :
    c9Store (GenerateIdempotencyKey (fun x => x) "u" "e" "b") = some c9Rec ∧
    c9Rec.expiresAt < 200 ∧
    (ProcessIdempotentRequest (fun x => x) (fun v : String => some v) some
      c9Store 200 "u" "e" "b" (fun _ => .ok "fresh")).workExecuted = true := by
  refine ⟨rfl, by decide, ?_⟩
  exact (c9_expired_reexecutes (fun x => x) (fun v => some v) some c9Store 200
    "u" "e" "b" (fun _ => .ok "fresh") c9Rec rfl (by decide)).2

/-- C10: a live record with matching request hash and status "failed"
makes `ProcessIdempotentRequest` fall through the status dispatch,
attempt the conditional insert, lose to the still-present key, and return
the store error — without re-executing the work closure and without
returning the stored failure marker; the key stays blocked. -/
theorem c10_failed_stays_blocked {V : Type} (hash : String → String)
    (serialize : V → Option String) (deserialize : String → Option V)
    (s : Store) (now : Nat) (userID endpoint requestBody : String)
    (handler : Unit → Except String V) (r : IdempotencyRecord)
    (hrec : s (GenerateIdempotencyKey hash userID endpoint requestBody) = some r)
    (hlive : ¬ r.expiresAt < now)
    (hhash : r.requestHash = GenerateRequestHash hash requestBody)
    (hst : r.status = "failed") :
    ProcessIdempotentRequest hash serialize deserialize s now userID endpoint
      requestBody handler
      = { store := s,
          result := .error (.storeFailed "idempotency key already exists"),
          workExecuted := false } := by
  simp [ProcessIdempotentRequest, CheckIdempotency, hrec, hlive, hhash, hst,
    runNewRequest, StoreIdempotencyRecord]

def c10Rec : IdempotencyRecord :=
  { key := "u:e:b", userID := "u", requestHash := "b",
    response := "error: boom", status := "failed", createdAt := 0,
    expiresAt := 100, ttl := 0 }

def c10Store : Store := fun k => if k = "u:e:b" then some c10Rec else none

/-- Witness for C10 at a concrete store holding a live failed record. -/
theorem c10_failed_stays_blocked_witness :
    c10Store (GenerateIdempotencyKey (fun x => x) "u" "e" "b") = some c10Rec ∧
    ¬ c10Rec.expiresAt < 50 ∧
    c10Rec.status = "failed" ∧
    ProcessIdempotentRequest (fun x => x) (fun v : String => some v) some
      c10Store 50 "u" "e" "b" (fun _ => .ok "fresh")
      = { store := c10Store,
          result := .error (.storeFailed "idempotency key already exists"),
          workExecuted := false } := by
  refine ⟨rfl, by decide, rfl, ?_⟩
  exact c10_failed_stays_blocked (fun x => x) (fun v => some v) some c10Store
    50 "u" "e" "b" (fun _ => .ok "fresh") c10Rec rfl (by decide) rfl rfl

/-- C6: `CheckUserSpendLimit` allows a request iff the read record's cost
plus the estimate stays within its daily limit, reports
`remaining = dailyLimit - currentCost` on denial, and when no record
exists for the user today it reads a default record with cost 0 and the
fixed $5.00 limit. -/
theorem c6_admission (s : SpendStore) (userID today nowStr : String) (est : ℚ) :
    ((readSpendRecord s userID today nowStr).llmCost + est ≤
        (readSpendRecord s userID today nowStr).dailyLimit →
      (CheckUserSpendLimit s userID today nowStr est).2 =
        { allowed := true,
          remaining := (readSpendRecord s userID today nowStr).dailyLimit -
            (readSpendRecord s userID today nowStr).llmCost,
          currentCost := (readSpendRecord s userID today nowStr).llmCost,
          dailyLimit := (readSpendRecord s userID today nowStr).dailyLimit }) ∧
    ((readSpendRecord s userID today nowStr).dailyLimit <
        (readSpendRecord s userID today nowStr).llmCost + est →
      (CheckUserSpendLimit s userID today nowStr est).2 =
        { allowed := false,
          remaining := (readSpendRecord s userID today nowStr).dailyLimit -
            (readSpendRecord s userID today nowStr).llmCost,
          currentCost := (readSpendRecord s userID today nowStr).llmCost,
          dailyLimit := (readSpendRecord s userID today nowStr).dailyLimit }) ∧
    (s userID today = none →
      (readSpendRecord s userID today nowStr).llmCost = 0 ∧
      (readSpendRecord s userID today nowStr).dailyLimit = 5) := by
  refine ⟨?_, ?_, ?_⟩
  · intro h
    have hc : ¬ (readSpendRecord s userID today nowStr).llmCost + est >
        (readSpendRecord s userID today nowStr).dailyLimit := not_lt.mpr h
    simp [CheckUserSpendLimit, hc]
  · intro h
    simp [CheckUserSpendLimit, h]
  · intro h
    simp [readSpendRecord, h, getDefaultDailyLimit]

/-- Witness for C6: with an empty spend table, an estimate of $1 is
allowed and an estimate of $10 is denied with $5 remaining. -/
theorem c6_admission_witness :
    ((readSpendRecord (fun _ _ => none) "u" "2026-01-01" "t").llmCost + 1 ≤
      (readSpendRecord (fun _ _ => none) "u" "2026-01-01" "t").dailyLimit) ∧
    (CheckUserSpendLimit (fun _ _ => none) "u" "2026-01-01" "t" 1).2 =
      { allowed := true, remaining := 5, currentCost := 0, dailyLimit := 5 } ∧
    ((readSpendRecord (fun _ _ => none) "u" "2026-01-01" "t").dailyLimit <
      (readSpendRecord (fun _ _ => none) "u" "2026-01-01" "t").llmCost + 10) ∧
    (CheckUserSpendLimit (fun _ _ => none) "u" "2026-01-01" "t" 10).2 =
      { allowed := false, remaining := 5, currentCost := 0, dailyLimit := 5 } := by
  have hr : readSpendRecord (fun _ _ => none) "u" "2026-01-01" "t"
      = { userID := "u", date := "2026-01-01", llmRequests := 0, llmCost := 0,
          dailyLimit := 5, createdAt := "t", updatedAt := "t", ttl := 0 } := rfl
  refine ⟨by rw [hr]; norm_num, ?_, by rw [hr]; norm_num, ?_⟩
  · have h := (c6_admission (fun _ _ => none) "u" "2026-01-01" "t" 1).1
      (by rw [hr]; norm_num)
    rw [h, hr]
    norm_num
  · have h := (c6_admission (fun _ _ => none) "u" "2026-01-01" "t" 10).2.1
      (by rw [hr]; norm_num)
    rw [h, hr]
    norm_num

/-- C7: under a faithful model of KMS and base64 (decrypt inverts encrypt,
decode inverts encode, and a nonempty plaintext yields a nonempty encoded
ciphertext), every successful `EncryptPHI` output decrypts back to the
original plaintext with the same number of service calls, and the empty
string short-circuits both directions with zero service calls. -/
theorem c7_roundtrip (svcEnc svcDec : String → Option String)
    (b64e : String → String) (b64d : String → Option String)
    (hrt : ∀ p b, svcEnc p = some b → svcDec b = some p)
    (hb64 : ∀ b, b64d (b64e b) = some b)
    (hne : ∀ p b, p ≠ "" → svcEnc p = some b → b64e b ≠ "") :
    (∀ p c n, EncryptPHI svcEnc b64e p = .ok (c, n) →
      DecryptPHI svcDec b64d c = .ok (p, n)) ∧
    EncryptPHI svcEnc b64e "" = .ok ("", 0) ∧
    DecryptPHI svcDec b64d "" = .ok ("", 0) := by
  refine ⟨?_, rfl, rfl⟩
  intro p c n h
  by_cases hp : p = ""
  · subst hp
    simp [EncryptPHI] at h
    obtain ⟨hc, hn⟩ := h
    subst hc; subst hn
    rfl
  · rw [EncryptPHI, if_neg hp] at h
    cases he : svcEnc p with
    | none => rw [he] at h; exact absurd h (by simp)
    | some blob =>
        rw [he] at h
        simp at h
        obtain ⟨hc, hn⟩ := h
        subst hc; subst hn
        have hcne : b64e blob ≠ "" := hne p blob hp he
        simp [DecryptPHI, hcne, hb64 blob, hrt p blob he]

/-- Witness for C7 with an invertible concrete service model. -/
theorem c7_roundtrip_witness :
    EncryptPHI (fun p => some p) (fun b => b) "abc" = .ok ("abc", 1) ∧
    DecryptPHI some some "abc" = .ok ("abc", 1) ∧
    EncryptPHI (fun p => some p) (fun b => b) "" = .ok ("", 0) ∧
    DecryptPHI some some "" = .ok ("", 0) := by
  have h := c7_roundtrip (fun p => some p) some (fun b => b) some
    (fun p b hb => by injection hb with h2; rw [h2])
    (fun _ => rfl)
    (fun p b hp hb => by injection hb with h2; rw [← h2]; exact hp)
  exact ⟨rfl, h.1 "abc" "abc" 1 rfl, h.2.1, h.2.2⟩

def c8Rec : UserSpendRecord :=
  { userID := "u", date := "2026-01-01", llmRequests := 0, llmCost := 1,
    dailyLimit := 5, createdAt := "t", updatedAt := "t", ttl := 0 }

def c8Store : SpendStore :=
  fun u d => if u = "u" ∧ d = "2026-01-01" then some c8Rec else none

/-- Counterexample to C8 as stated: `RecordLLMRequest` accepts a negative
cost (no validation) and then stores an accumulated cost strictly below
the one it read: reading $1, recording cost -$1 stores $0. -/
theorem c8_counterexample :
    c8Store "u" "2026-01-01" = some c8Rec ∧
    (RecordLLMRequest c8Store "u" "2026-01-01" "t" (-1) 0 "u" "2026-01-01").map
      UserSpendRecord.llmCost = some 0 ∧
    (0 : ℚ) < c8Rec.llmCost := by
  refine ⟨rfl, ?_, by norm_num [c8Rec]⟩
  norm_num [RecordLLMRequest, readSpendRecord, spendPut, c8Store, c8Rec]

/-- C8 amended: `CheckUserSpendLimit` never writes to the spend store,
and for every nonnegative cost `RecordLLMRequest` stores an accumulated
cost at least the one it read. -/
theorem c8_monotone_nonneg (s : SpendStore) (userID today nowStr : String)
    (cost : ℚ) (now : Nat) (est : ℚ) (hc : 0 ≤ cost) :
    (CheckUserSpendLimit s userID today nowStr est).1 = s ∧
    (RecordLLMRequest s userID today nowStr cost now userID today).map
      UserSpendRecord.llmCost
      = some ((readSpendRecord s userID today nowStr).llmCost + cost) ∧
    (readSpendRecord s userID today nowStr).llmCost ≤
      (readSpendRecord s userID today nowStr).llmCost + cost := by
  refine ⟨rfl, ?_, by linarith⟩
  simp [RecordLLMRequest, spendPut]

/-- Witness for C8 amended, recording $1 against an empty spend table. -/
theorem c8_monotone_nonneg_witness :
    (0 : ℚ) ≤ 1 ∧
    ((CheckUserSpendLimit (fun _ _ => none) "u" "2026-01-01" "t" 2).1 =
      (fun _ _ => none) ∧
     (RecordLLMRequest (fun _ _ => none) "u" "2026-01-01" "t" 1 0 "u"
        "2026-01-01").map UserSpendRecord.llmCost
       = some ((readSpendRecord (fun _ _ => none) "u" "2026-01-01" "t").llmCost
           + 1) ∧
     (readSpendRecord (fun _ _ => none) "u" "2026-01-01" "t").llmCost ≤
       (readSpendRecord (fun _ _ => none) "u" "2026-01-01" "t").llmCost + 1) :=
  ⟨by norm_num,
   c8_monotone_nonneg (fun _ _ => none) "u" "2026-01-01" "t" 1 0 2 (by norm_num)⟩

def c5Req : JournalEntryRequest :=
  { content := "hello", mood := "sad", tags := ["x"], idempotencyKey := "" }

def c5SpendRec : UserSpendRecord :=
  { userID := "alice", date := "2026-10-11", llmRequests := 3, llmCost := 5,
    dailyLimit := 5, createdAt := "t", updatedAt := "t", ttl := 0 }

def c5Spend : SpendStore :=
  fun u d => if u = "alice" ∧ d = "2026-10-11" then some c5SpendRec else none

/-- The estimated cost `processJournalEntry` computes for `c5Req`. -/
def c5Est : ℚ :=
  EstimateLLMCost ((c5Req.content).utf8ByteSize : Int) 100
    "anthropic.claude-3-sonnet-20240229-v1:0"

/-- C5 evaluated at a denied request for authenticated user "alice": the
degraded response keeps the plaintext content, mood and tags, has
`encrypted = false`, makes no encryption call and records no cost — but
its userId field is the hardcoded placeholder "user_id", not "alice",
contradicting the claim (and the code's own comment, which says it should
be the actual user id). -/
theorem c5_degraded_userid_bug :
    (CheckUserSpendLimit c5Spend "alice" "2026-10-11" "t" c5Est).2.allowed
      = false ∧
    (processJournalEntry "alice" c5Req c5Spend "2026-10-11" "t"
      (fun p => some p) (fun b => b) 100 999).map
      (fun o => (o.entry, o.encryptCalls, o.costRecorded))
      = .ok ({ id := "entry_999", userID := "user_id", content := "hello",
               mood := "sad", tags := ["x"], createdAt := 100,
               updatedAt := 100, encrypted := false }, 0, false) ∧
    "user_id" ≠ "alice" := by
  have hest : c5Est = 303 / 200000 := by
    have hsize : ((c5Req.content).utf8ByteSize : Int) = (5 : Int) := rfl
    unfold c5Est
    rw [hsize]
    norm_num [EstimateLLMCost, modelCosts]
  have hcheck : (CheckUserSpendLimit c5Spend "alice" "2026-10-11" "t"
      c5Est).2.allowed = false := by
    rw [hest]
    norm_num [CheckUserSpendLimit, readSpendRecord, c5Spend, c5SpendRec]
  refine ⟨hcheck, ?_, by decide⟩
  have hcheck2 : (CheckUserSpendLimit c5Spend "alice" "2026-10-11" "t"
      (EstimateLLMCost ((c5Req.content).utf8ByteSize : Int) 100
        "anthropic.claude-3-sonnet-20240229-v1:0")).2.allowed = false := hcheck
  simp only [processJournalEntry, hcheck2, eq_self_iff_true, if_true]
  rfl

end AwsBackend
